import Mathlib

/-!
Shallow embedding of the self-update launcher core of the crawl-program
repository (src/launcher), together with proofs settling the frozen claims
about its specification.

Modules embedded:
* `launcher/core/versioning.py`  — `parse_semver`, `compare_versions`
* `launcher/core/installer.py`   — `promote_staging` over an abstract store
* `launcher/core/downloader.py`  — `download_file` over an abstract store
* `launcher/core/state.py`       — `read_current_state`, `write_current_state`
* `launcher/core/api.py`         — `fetch_latest`
* `launcher/workers/update_worker.py` — `UpdateWorker._run_impl` / `run`

Python strings are modelled as `List Char`; Python exceptions crossing a
function boundary are modelled as `Except.error`; fallible operations that
the code reports through a `(bool, msg, …)` tuple keep that tuple shape.
-/

namespace Launcher

/-! ## Python string primitives

`isWs` models the ASCII whitespace characters stripped by `str.strip()`
(space, tab, LF, CR, VT, FF); none of the launcher's inputs involve the
further Unicode whitespace Python would also strip. -/

def isWs (c : Char) : Bool :=
  c = ' ' || c = '\t' || c = '\n' || c = '\r' || c = Char.ofNat 11 || c = Char.ofNat 12

/-- Leading-whitespace strip, `s.lstrip()`. -/
def lstrip (l : List Char) : List Char := l.dropWhile isWs

/-- Trailing-whitespace strip, `s.rstrip()`. -/
def rstrip (l : List Char) : List Char := (l.reverse.dropWhile isWs).reverse

/-- Both-sides strip, `s.strip()`. -/
def pstrip (l : List Char) : List Char := lstrip (rstrip l)

/-- `str.strip()` on Lean `String`s (used by the state / api embeddings). -/
def pystrip (s : String) : String := String.mk (pstrip s.toList)

/-- Digit run with single underscores between digits, continuing an
already-started literal: models the tail of Python's `int()` digit grammar
(`1_0` is 10; `1__0`, `1_`, `_1` are rejected). -/
def digitsRest : List Char → Nat → Option Nat
  | [], acc => some acc
  | '_' :: c :: cs, acc =>
    if c.isDigit then digitsRest cs (acc * 10 + (c.toNat - 48)) else none
  | ['_'], _ => none
  | c :: cs, acc =>
    if c.isDigit then digitsRest cs (acc * 10 + (c.toNat - 48)) else none

/-- Nonempty digit run (underscore grouping allowed), first char must be a
digit. -/
def digitsStart : List Char → Option Nat
  | [] => none
  | c :: cs => if c.isDigit then digitsRest cs (c.toNat - 48) else none

/-- Python `int(s)` on a decimal string: surrounding whitespace tolerated,
one optional sign, then digits with underscore grouping. `none` models a
raised `ValueError`. -/
def pyInt (l : List Char) : Option Int :=
  match pstrip l with
  | '+' :: rest => (digitsStart rest).map Int.ofNat
  | '-' :: rest => (digitsStart rest).map (fun n => -(n : Int))
  | rest => (digitsStart rest).map Int.ofNat

/-- `s.split(".")`: always returns at least one (possibly empty) component. -/
def splitOnDot : List Char → List (List Char)
  | [] => [[]]
  | c :: cs =>
    if c = '.' then [] :: splitOnDot cs
    else
      match splitOnDot cs with
      | [] => [[c]]
      | p :: ps => (c :: p) :: ps

/-! ## `launcher/core/versioning.py` -/

/-- Shared tail of `parse_semver`: exactly three dot-separated components,
each an `int()`, none negative. -/
def semTriple (s : List Char) : Option (Int × Int × Int) :=
  match splitOnDot s with
  | [a, b, c] =>
    match pyInt a, pyInt b, pyInt c with
    | some x, some y, some z =>
      if x < 0 ∨ y < 0 ∨ z < 0 then none else some (x, y, z)
    | _, _, _ => none
  | _ => none

/-- `parse_semver(v)`; `none` models the raised `ValueError`. The code
strips, rejects the empty string, strips one leading `v`/`V` and strips
again, then splits on `.`. -/
def parse_semver (v : List Char) : Option (Int × Int × Int) :=
  let s := pstrip v
  match s with
  | [] => none
  | c :: rest =>
    if c = 'v' ∨ c = 'V' then semTriple (pstrip rest)
    else semTriple (c :: rest)

/-- The parse procedure as the specification words it: strip surrounding
whitespace, drop one optional leading `v`/`V` (with no re-strip), split on
`.`, require three non-negative integer components. -/
def parseSemverSpec (v : List Char) : Option (Int × Int × Int) :=
  let s := pstrip v
  match s with
  | [] => semTriple []
  | c :: rest =>
    if c = 'v' ∨ c = 'V' then semTriple rest
    else semTriple (c :: rest)

/-- Python tuple `<` on triples (lexicographic). -/
def tupLt (x y : Int × Int × Int) : Prop :=
  x.1 < y.1 ∨ (x.1 = y.1 ∧ (x.2.1 < y.2.1 ∨ (x.2.1 = y.2.1 ∧ x.2.2 < y.2.2)))

instance (x y : Int × Int × Int) : Decidable (tupLt x y) := by
  unfold tupLt; infer_instance

/-- `compare_versions(local_v, server_v)`; `none` models the `ValueError`
propagating out of either `parse_semver` call. -/
def compare_versions (localV serverV : List Char) : Option Int :=
  match parse_semver localV, parse_semver serverV with
  | some l, some s =>
    some (if tupLt l s then -1 else if tupLt s l then 1 else 0)
  | _, _ => none

/-! ## `launcher/core/installer.py`

The directory tree moved around by `promote_staging` is opaque to the
function, so the filesystem is modelled as a flat map from path names to
optional directory contents of an arbitrary type `α`.  `shutil.rmtree` and
`Path.rename` become `fsRemove` / `fsRename`; `target_dir.parent.mkdir`
touches no entry of this map. -/

abbrev Fs (α : Type) : Type := String → Option α

def fsRemove {α : Type} (n : String) (fs : Fs α) : Fs α :=
  fun m => if m = n then none else fs m

def fsRename {α : Type} (src dst : String) (fs : Fs α) : Fs α :=
  fun m => if m = dst then fs src else if m = src then none else fs m

/-- `promote_staging(staging_dir, target_dir)` on a store where every
filesystem operation succeeds (the claims about it concern successful
promotes).  Mirrors the code: fail if staging is absent; clear a stale
backup; rename an existing target aside to `target + "__bak"`; rename
staging to target; delete the backup if present. -/
def promote_staging {α : Type} (staging target : String) (fs : Fs α) :
    Bool × Fs α :=
  if (fs staging).isNone then (false, fs)
  else
    let backup := target ++ "__bak"
    let fs1 := if (fs backup).isSome then fsRemove backup fs else fs
    let fs2 := if (fs1 target).isSome then fsRename target backup fs1 else fs1
    let fs3 := fsRename staging target fs2
    let fs4 := if (fs3 backup).isSome then fsRemove backup fs3 else fs3
    (true, fs4)

/-! ## `launcher/core/downloader.py` -/

/-- A file body is a list of bytes. -/
abbrev Bytes : Type := List Nat

/-- What the HTTP layer hands `download_file`:
`connErr` — `requests.get` itself raises;
`resp status chunks midErr` — a response with the given status whose body
streams `chunks`, raising after the last delivered chunk when `midErr`
(this also covers a write error while the temp file is open, which lands in
the same `except` handler). -/
inductive DlResp : Type
  | connErr : DlResp
  | resp (status : Nat) (chunks : List Bytes) (midErr : Bool) : DlResp

/-- The slice of disk state `download_file` can touch: the destination
file, the sibling `dst_path + ".part"` temp file, and whether the parent
directory chain of `dst_path` exists. -/
structure DlState : Type where
  dst : Option Bytes
  part : Option Bytes
  parentMade : Bool

/-- `download_file(url, dst_path, …)`: returns `(ok, bytes_written)` and the
final disk state.  Mirrors the code: the parent directory is created before
the request; a non-200 status returns early (no cleanup of the temp file);
any exception path deletes the temp file; only full success removes a
pre-existing destination and renames the temp file into place.  Empty
chunks are skipped by the loop and contribute nothing. -/
def download_file (s : DlState) (r : DlResp) : (Bool × Nat) × DlState :=
  let s0 : DlState := { s with parentMade := true }
  match r with
  | .connErr => ((false, 0), { s0 with part := none })
  | .resp status chunks midErr =>
    if status ≠ 200 then ((false, 0), s0)
    else
      let content : Bytes := chunks.flatten
      let written : Nat := List.length content
      if midErr then ((false, 0), { s0 with part := none })
      else ((true, written), { s0 with dst := some content, part := none })

/-- Cumulative totals of a byte-count list: the value of `bytes_written`
after each chunk. -/
def cums (acc : Nat) : List Nat → List Nat
  | [] => []
  | n :: ns => (acc + n) :: cums (acc + n) ns

/-- The percentages `UpdateWorker.on_dl_progress` forwards to `_progress`
for one download: after each nonempty chunk the downloader reports the
cumulative `written` and the Content-Length `total`, and the worker emits
`int((written / total) * 80)` (clamped into 0–100 by `_progress`) whenever
`total > 0`.  For the byte counts involved the float expression truncates
the exact ratio, modelled by natural division. -/
def dlEmits (total : Nat) (chunks : List Bytes) : List Nat :=
  if total = 0 then []
  else
    (cums 0 ((chunks.filter (fun c => !c.isEmpty)).map List.length)).map
      (fun w => min 100 (w * 80 / total))

/-! ## A small JSON value model (for `state.py` and `api.py`) -/

inductive Json : Type
  | null : Json
  | bool (b : Bool) : Json
  | num (n : Int) : Json
  | str (s : String) : Json
  | arr (xs : List Json) : Json
  | obj (kvs : List (String × Json)) : Json

/-- `dict.get(k)` on an object's key/value list; `none` is Python `None`
(also the result for an absent key). -/
def jGet (kvs : List (String × Json)) (k : String) : Option Json :=
  kvs.lookup k

/-- Python truthiness of a JSON value. -/
def jTruthy : Json → Bool
  | .null => false
  | .bool b => b
  | .num n => n ≠ 0
  | .str s => s ≠ ""
  | .arr xs => !xs.isEmpty
  | .obj kvs => !kvs.isEmpty

/-! ## `launcher/core/state.py` -/

structure CurrentState : Type where
  program_id : String
  version : String
  server_url : String
deriving DecidableEq

/-- The file argument to `read_current_state`: `none` — the file is absent;
`some none` — present but `json.loads` raises; `some (some j)` — parses to
the JSON value `j`. -/
abbrev StateFile : Type := Option (Option Json)

/-- `read_current_state(path)`.  The function raises on every failure
(`FileNotFoundError`, `ValueError` from `json.loads`, `AttributeError` when
the parsed body is not an object, `ValueError` when a field is missing,
non-string, or blank); a raised exception is `Except.error`.  On success
each field is returned stripped. -/
def read_current_state (file : StateFile) : Except String CurrentState :=
  match file with
  | none => .error "FileNotFoundError: current.json not found"
  | some none => .error "ValueError: json.loads"
  | some (some j) =>
    match j with
    | .obj kvs =>
      match jGet kvs "program_id" with
      | some (.str pid) =>
        if pystrip pid = "" then .error "ValueError: program_id"
        else
          match jGet kvs "version" with
          | some (.str ver) =>
            if pystrip ver = "" then .error "ValueError: version"
            else
              match jGet kvs "server_url" with
              | some (.str url) =>
                if pystrip url = "" then .error "ValueError: server_url"
                else .ok ⟨pystrip pid, pystrip ver, pystrip url⟩
              | _ => .error "ValueError: server_url"
          | _ => .error "ValueError: version"
      | _ => .error "ValueError: program_id"
    | _ => .error "AttributeError: get"

/-- `write_current_state(path, st)`: the JSON value that ends up as the
durable file content after the temp-file-then-replace dance. -/
def write_current_state (st : CurrentState) : Json :=
  .obj [("version", .str st.version),
        ("program_id", .str st.program_id),
        ("server_url", .str st.server_url)]

/-! ## `launcher/core/api.py` -/

structure LatestInfo : Type where
  program_id : String
  latest_version : String
  asset_url : Option String := none
  asset_sha256 : Option String := none
  asset_size : Option Int := none
deriving DecidableEq

/-- The HTTP outcome feeding `fetch_latest`: `none` — `requests.get`
raises; `some (status, body)` — a response with that status whose body is
`some j` when `res.json()` parses to `j` and `none` when it raises. -/
abbrev ApiResp : Type := Option (Nat × Option Json)

/-- Permissive read of an optional string field of the `asset` object. -/
def assetStr (akvs : List (String × Json)) (k : String) : Option String :=
  match jGet akvs k with
  | some (.str s) => if pystrip s = "" then none else some (pystrip s)
  | _ => none

/-- Permissive read of the optional integer `size` field (`isinstance(x,
int)` also accepts Python booleans). -/
def assetSize (akvs : List (String × Json)) : Option Int :=
  match jGet akvs "size" with
  | some (.num n) => some n
  | some (.bool b) => some (if b then 1 else 0)
  | _ => none

/-- `fetch_latest(server_base_url, program_id)`: returns the `(ok, msg,
info)` tuple, or `Except.error` for the `AttributeError` that escapes when
`obj.get` / `asset.get` is called on a non-dict (the only statements of the
function outside a `try`). -/
def fetch_latest (resp : ApiResp) :
    Except String (Bool × String × Option LatestInfo) :=
  match resp with
  | none => .ok (false, "request failed", none)
  | some (status, body) =>
    if status ≠ 200 then .ok (false, "bad status", none)
    else
      match body with
      | none => .ok (false, "json parse failed", none)
      | some j =>
        match j with
        | .obj kvs =>
          match jGet kvs "program_id" with
          | some (.str pid) =>
            if pystrip pid = "" then .ok (false, "invalid response: program_id", none)
            else
              match jGet kvs "latest_version" with
              | some (.str latest) =>
                if pystrip latest = "" then
                  .ok (false, "invalid response: latest_version", none)
                else
                  let asset : Json :=
                    match jGet kvs "asset" with
                    | some a => if jTruthy a then a else .obj []
                    | none => .obj []
                  match asset with
                  | .obj akvs =>
                    .ok (true, "ok",
                      some { program_id := pystrip pid,
                             latest_version := pystrip latest,
                             asset_url := assetStr akvs "url",
                             asset_sha256 := assetStr akvs "sha256",
                             asset_size := assetSize akvs })
                  | _ => .error "AttributeError: asset.get"
              | _ => .ok (false, "invalid response: latest_version", none)
          | _ => .ok (false, "invalid response: program_id", none)
        | _ => .error "AttributeError: obj.get"

/-! ## `launcher/workers/update_worker.py`

`_run_impl` is straight-line code over its collaborators.  Its inputs —
the state file, the two HTTP responses, and the outcomes of the filesystem
stages — are collected in a `World`; the run returns the `UpdateResult`
(`Except.error` standing for an exception escaping `_run_impl`), the list
of percentages emitted through `sig_progress`, and the list of
filesystem-mutating stages executed. -/

structure UpdateResult : Type where
  ok : Bool
  message : String
  exe_path : Option String := none
  did_run : Bool := false
  update_available : Bool := false
  latest_version : Option String := none
  asset_url : Option String := none
deriving DecidableEq

/-- A filesystem-mutating stage of `_run_impl` (`download_file`,
`unzip_to_staging`, `promote_staging`, `write_current_state`,
`cleanup_paths`). -/
inductive Effect : Type
  | download : Effect
  | unzip : Effect
  | promote : Effect
  | writeState : Effect
  | cleanup : Effect
deriving DecidableEq

structure World : Type where
  /-- The `current.json` file handed to `read_current_state`. -/
  currentJson : StateFile
  /-- The response to `fetch_latest`. -/
  fetchResp : ApiResp
  /-- The worker's `auto_update` flag. -/
  autoUpdate : Bool
  /-- `_resolve_latest_exe_from_state`: the first `CrawlProgram.exe` found
  under the installed version directory, if any (a pure filesystem read). -/
  localExe : Option String
  /-- `probe_url` outcome (logged only, never branched on). -/
  probeOk : Bool
  /-- The HTTP outcome of the asset download. -/
  dlResp : DlResp
  /-- The Content-Length total the downloader parses (0 when absent or
  unparsable). -/
  dlTotal : Nat
  /-- `unzip_to_staging` outcome. -/
  unzipOk : Bool
  /-- `_find_exe` over the staging directory. -/
  stagingExe : Option String
  /-- `promote_staging` outcome. -/
  promoteOk : Bool
  /-- Whether `write_current_state` completes (it raises on an I/O error). -/
  writeOk : Bool
  /-- `_find_exe` over the promoted target directory. -/
  targetExe : Option String

/-- `_progress` clamps into 0–100 before emitting (percentages are already
non-negative here). -/
def clampPct (p : Nat) : Nat := min 100 p

/-- The download stage as `_run_impl` sees it: did `download_file` succeed,
and which percentages did `on_dl_progress` emit.  Progress fires only while
chunks are being written, i.e. on a 200 response. -/
def dlStage (r : DlResp) (total : Nat) : Bool × List Nat :=
  match r with
  | .connErr => (false, [])
  | .resp status chunks midErr =>
    if status ≠ 200 then (false, [])
    else (!midErr, dlEmits total chunks)

/-- Stages of `_run_impl` from the download onward (the auto-update branch
after `asset_url` was found non-empty).  `exeLocal` is the already-resolved
fallback executable. -/
def runUpdate (w : World) (exeLocal : Option String) :
    Except String UpdateResult × List Nat × List Effect :=
  let dl := dlStage w.dlResp w.dlTotal
  if !dl.1 then
    (.ok { ok := false, message := "download failed", exe_path := exeLocal },
     [clampPct 0] ++ dl.2, [.download])
  else if !w.unzipOk then
    (.ok { ok := false, message := "unzip failed", exe_path := exeLocal },
     [clampPct 0] ++ (dl.2 ++ [clampPct 85]), [.download, .unzip])
  else
    match w.stagingExe with
    | none =>
      (.ok { ok := false, message := "exe not found in zip", exe_path := exeLocal },
       [clampPct 0] ++ (dl.2 ++ [clampPct 85]), [.download, .unzip])
    | some _ =>
      if !w.promoteOk then
        (.ok { ok := false, message := "promote failed", exe_path := exeLocal },
         [clampPct 0] ++ (dl.2 ++ [clampPct 85, clampPct 92]),
         [.download, .unzip, .promote])
      else if !w.writeOk then
        (.error "OSError: write_current_state",
         [clampPct 0] ++ (dl.2 ++ [clampPct 85, clampPct 92, clampPct 96]),
         [.download, .unzip, .promote, .writeState])
      else
        match w.targetExe with
        | none =>
          (.ok { ok := false, message := "installed but exe not found",
                 exe_path := exeLocal },
           [clampPct 0] ++ (dl.2 ++
             [clampPct 85, clampPct 92, clampPct 96, clampPct 98, clampPct 100]),
           [.download, .unzip, .promote, .writeState, .cleanup])
        | some exe2 =>
          (.ok { ok := true, message := "ok(installed)", exe_path := some exe2 },
           [clampPct 0] ++ (dl.2 ++
             [clampPct 85, clampPct 92, clampPct 96, clampPct 98, clampPct 100]),
           [.download, .unzip, .promote, .writeState, .cleanup])

/-- `UpdateWorker._run_impl`.  Mirrors the code path for path: read state
(raises on failure), fetch the latest info (tagged failure returns, a
raised `AttributeError` propagates), compare versions (raises on a
malformed version), then branch on the comparison, the `auto_update` flag
and the asset URL before entering the download stages. -/
def runImpl (w : World) : Except String UpdateResult × List Nat × List Effect :=
  let prog0 := [clampPct 0]
  match read_current_state w.currentJson with
  | .error e => (.error e, prog0, [])
  | .ok st =>
    match fetch_latest w.fetchResp with
    | .error e => (.error e, prog0, [])
    | .ok (fok, fmsg, latestOpt) =>
      match fok, latestOpt with
      | true, some latest =>
        match compare_versions st.version.toList latest.latest_version.toList with
        | none => (.error "ValueError: compare_versions", prog0, [])
        | some c =>
          if c > 0 then
            match w.localExe with
            | none =>
              (.ok { ok := false, message := "latest exe not found" }, prog0, [])
            | some exe =>
              (.ok { ok := true, message := "ok(local newer)", exe_path := some exe },
               prog0, [])
          else if c = 0 then
            match w.localExe with
            | none =>
              (.ok { ok := false, message := "latest exe not found" }, prog0, [])
            | some exe =>
              (.ok { ok := true, message := "ok(up-to-date)", exe_path := some exe },
               prog0, [])
          else
            let exeLocal := w.localExe
            if !w.autoUpdate then
              (.ok { ok := true, message := "update available",
                     exe_path := exeLocal, update_available := true,
                     latest_version := some latest.latest_version,
                     asset_url := latest.asset_url }, prog0, [])
            else
              match latest.asset_url with
              | none =>
                (.ok { ok := false, message := "asset_url is empty",
                       exe_path := exeLocal }, prog0, [])
              | some _ => runUpdate w exeLocal
      | _, _ =>
        (.ok { ok := false, message := "fetch_latest failed: " ++ fmsg },
         prog0, [])

/-- `UpdateWorker.run`: the catch-all that turns any exception escaping
`_run_impl` into `UpdateResult(False, "unexpected error: …", None, False)`
before `sig_done` fires. -/
def runWorker (w : World) : UpdateResult × List Nat × List Effect :=
  match runImpl w with
  | (.error e, prog, effs) =>
    ({ ok := false, message := "unexpected error: " ++ e }, prog, effs)
  | (.ok r, prog, effs) => (r, prog, effs)

/-! ## Derived definitions used by the claims -/

/-- Append `w` to the final component of a component list. -/
def appLast (w : List Char) : List (List Char) → List (List Char)
  | [] => [w]
  | [p] => [p ++ w]
  | p :: q :: ps => p :: appLast w (q :: ps)

/-- Is the modelled call an escaping exception? -/
def isErr {α : Type} : Except String α → Bool
  | .error _ => true
  | .ok _ => false

def isObj : Json → Bool
  | .obj _ => true
  | _ => false

/-- Does the object have a non-blank string at `k`? -/
def fieldStrOk (kvs : List (String × Json)) (k : String) : Bool :=
  match jGet kvs k with
  | some (.str s) => pystrip s != ""
  | _ => false

/-- The exact inputs on which `fetch_latest` raises: a 200 response whose
parsed JSON body is not an object, or one whose body is an object that
passes the `program_id` / `latest_version` checks but carries a truthy
non-object `asset` field (then `asset.get` raises `AttributeError`). -/
def fetchRaises (resp : ApiResp) : Bool :=
  match resp with
  | some (status, some j) =>
    if status = 200 then
      match j with
      | .obj kvs =>
        fieldStrOk kvs "program_id" && fieldStrOk kvs "latest_version" &&
          (match jGet kvs "asset" with
           | some a => jTruthy a && !(isObj a)
           | none => false)
      | _ => true
    else false
  | _ => false

/-- A concrete store for exercising `promote_replaces_target`. -/
def fsDemo : Fs Nat := fun n =>
  if n = "versions/_staging/p/v1_1_0" then some 11
  else if n = "versions/v1_1_0" then some 10
  else none

/-! ### Orchestrator fixtures and claims -/

/-- A valid `current.json` body (`version "1.0.0"`). -/
def stJson : Json :=
  .obj [("program_id", .str "p"), ("version", .str "1.0.0"),
        ("server_url", .str "u")]

/-- A valid `latest` response body advertising `1.1.0` with an asset URL. -/
def latestJson : Json :=
  .obj [("program_id", .str "p"), ("latest_version", .str "1.1.0"),
        ("asset", .obj [("url", .str "http://x/a.zip")])]

/-- A world in which every stage succeeds: local `1.0.0`, remote `1.1.0`,
auto-update on, one 1-byte chunk against Content-Length 1. -/
def baseWorld : World where
  currentJson := some (some stJson)
  fetchResp := some (200, some latestJson)
  autoUpdate := true
  localExe := some "versions/v1_0_0/CrawlProgram.exe"
  probeOk := true
  dlResp := .resp 200 [[1]] false
  dlTotal := 1
  unzipOk := true
  stagingExe := some "staging/CrawlProgram.exe"
  promoteOk := true
  writeOk := true
  targetExe := some "versions/v1_1_0/CrawlProgram.exe"

/-- The download trace stays within the server-reported Content-Length: the
bytes streamed never exceed the reported total (or the total is absent /
zero, in which case no download percentage is emitted at all). -/
def dlWithin (w : World) : Prop :=
  match w.dlResp with
  | .connErr => True
  | .resp _ chunks _ =>
    (chunks.map List.length).sum ≤ w.dlTotal ∨ w.dlTotal = 0

/-- The base world with a download stream of two 1-byte chunks against a
server-reported Content-Length of 1. -/
def underReportWorld : World :=
  { baseWorld with dlResp := .resp 200 [[9], [9]] false, dlTotal := 1 }

/-! # Theorems -/

/-- C1: a successful `promote(staging_dir, target_dir)` leaves `target_dir`
holding exactly the former staging content and no `target_dir + "__bak"`
directory — both when `target_dir` pre-existed with other content and when
it did not (in which case no backup directory is created either). -/
theorem promote_replaces_target {α : Type} (fs : Fs α) (staging target : String)
    (B : α)
    (hst : staging ≠ target) (hsb : staging ≠ target ++ "__bak")
    (htb : target ≠ target ++ "__bak")
    (hB : fs staging = some B) :
    (∀ A : α, fs target = some A →
      (promote_staging staging target fs).1 = true ∧
      (promote_staging staging target fs).2 target = some B ∧
      (promote_staging staging target fs).2 (target ++ "__bak") = none) ∧
    (fs target = none →
      (promote_staging staging target fs).1 = true ∧
      (promote_staging staging target fs).2 target = some B ∧
      (promote_staging staging target fs).2 (target ++ "__bak") = none) := by
  constructor
  · intro A hA
    rcases hbak : fs (target ++ "__bak") with _ | x <;>
      simp [promote_staging, fsRemove, fsRename, hB, hA, hbak, hst, hsb, htb,
        Ne.symm hst, Ne.symm hsb, Ne.symm htb]
  · intro hA
    rcases hbak : fs (target ++ "__bak") with _ | x <;>
      simp [promote_staging, fsRemove, fsRename, hB, hA, hbak, hst, hsb, htb,
        Ne.symm hst, Ne.symm hsb, Ne.symm htb]


/-- Witness for C1: `promote_replaces_target` applied to a store where the
target pre-exists with content 10 and staging holds content 11. -/
theorem promote_replaces_target_witness :
    (promote_staging "versions/_staging/p/v1_1_0" "versions/v1_1_0" fsDemo).1 = true ∧
    (promote_staging "versions/_staging/p/v1_1_0" "versions/v1_1_0" fsDemo).2
      "versions/v1_1_0" = some 11 ∧
    (promote_staging "versions/_staging/p/v1_1_0" "versions/v1_1_0" fsDemo).2
      ("versions/v1_1_0" ++ "__bak") = none :=
  (promote_replaces_target fsDemo "versions/_staging/p/v1_1_0" "versions/v1_1_0" 11
    (by decide) (by decide) (by decide) rfl).1 10 rfl

/-- C2 counterexample: a download rejected with a non-200 status before any
byte is transferred returns through the early `return` inside the `try`
block, which does not run the `except` cleanup — so a stale pre-existing
`dst_path + ".part"` file survives the failing call, contradicting the
claim that after every failing call no `.part` file exists. -/
theorem download_part_counterexample :
    ((download_file ⟨none, some [1], false⟩ (.resp 404 [] false)).1.1 = false) ∧
    ((download_file ⟨none, some [1], false⟩ (.resp 404 [] false)).2.part = some [1]) := by
  constructor <;> rfl

/-- C2 amended: every failing `download` leaves the destination exactly as
it was (no new file, pre-existing content unchanged) and leaves no
`.part` file, except that a non-200 rejection — which returns before the
temp file is ever opened — leaves a pre-existing `.part` file untouched
rather than deleting it. -/
theorem download_failure_cleanup (s : DlState) (r : DlResp)
    (hfail : (download_file s r).1.1 = false) :
    (download_file s r).2.dst = s.dst ∧
    ((download_file s r).2.part = none ∨
      (∃ status chunks midErr, r = .resp status chunks midErr ∧ status ≠ 200 ∧
        (download_file s r).2.part = s.part)) := by
  cases r with
  | connErr => exact ⟨rfl, Or.inl rfl⟩
  | resp status chunks midErr =>
    by_cases h200 : status = 200
    · cases midErr with
      | false => simp [download_file, h200] at hfail
      | true => subst h200; exact ⟨rfl, Or.inl rfl⟩
    · refine ⟨?_, Or.inr ⟨status, chunks, midErr, rfl, h200, ?_⟩⟩ <;>
        simp [download_file, h200]

/-- Witness for C2 (amended): a mid-stream network error after one chunk
fails, leaves the pre-existing destination untouched and no `.part` file. -/
theorem download_failure_cleanup_witness :
    (download_file ⟨some [7], none, true⟩ (.resp 200 [[1]] true)).2.dst = some [7] ∧
    ((download_file ⟨some [7], none, true⟩ (.resp 200 [[1]] true)).2.part = none ∨
      (∃ status chunks midErr,
        (DlResp.resp 200 [[1]] true) = .resp status chunks midErr ∧ status ≠ 200 ∧
        (download_file ⟨some [7], none, true⟩ (.resp 200 [[1]] true)).2.part = none)) :=
  download_failure_cleanup ⟨some [7], none, true⟩ (.resp 200 [[1]] true) rfl

/-- C10: `download` creates the parent directories of `dst_path` before the
request is issued, so they exist afterwards on every outcome — including a
connection error and a non-200 rejection where no byte was written. -/
theorem download_makes_parent (s : DlState) (r : DlResp) :
    ((download_file s r).2).parentMade = true := by
  cases r with
  | connErr => rfl
  | resp status chunks midErr =>
    by_cases h200 : status = 200 <;> cases midErr <;> simp [download_file, h200]

/-- C7 counterexample: `CurrentState("p", " ", "u")` has three non-empty
fields, so the claim says `read(write(path, state))` succeeds and returns
the same state; but `read_current_state` rejects the whitespace-only
`version` field (`not version.strip()`), so the read fails. -/
theorem state_roundtrip_counterexample :
    (⟨"p", " ", "u"⟩ : CurrentState).program_id ≠ "" ∧
    (⟨"p", " ", "u"⟩ : CurrentState).version ≠ "" ∧
    (⟨"p", " ", "u"⟩ : CurrentState).server_url ≠ "" ∧
    read_current_state (some (some (write_current_state ⟨"p", " ", "u"⟩))) =
      .error "ValueError: version" := by
  refine ⟨by decide, by decide, by decide, ?_⟩
  rfl

/-- C7 amended: the write-then-read round-trip returns the state unchanged
for every `CurrentState` whose fields are non-empty and carry no
surrounding whitespace (`read` strips each field and rejects blank ones,
so a field with surrounding whitespace comes back trimmed instead of
equal, and a whitespace-only field fails the read). -/
theorem state_roundtrip (st : CurrentState)
    (hp : pystrip st.program_id = st.program_id) (hp0 : st.program_id ≠ "")
    (hv : pystrip st.version = st.version) (hv0 : st.version ≠ "")
    (hs : pystrip st.server_url = st.server_url) (hs0 : st.server_url ≠ "") :
    read_current_state (some (some (write_current_state st))) = .ok st := by
  have h1 : jGet [("version", Json.str st.version),
      ("program_id", Json.str st.program_id),
      ("server_url", Json.str st.server_url)] "program_id" =
      some (Json.str st.program_id) := rfl
  have h2 : jGet [("version", Json.str st.version),
      ("program_id", Json.str st.program_id),
      ("server_url", Json.str st.server_url)] "version" =
      some (Json.str st.version) := rfl
  have h3 : jGet [("version", Json.str st.version),
      ("program_id", Json.str st.program_id),
      ("server_url", Json.str st.server_url)] "server_url" =
      some (Json.str st.server_url) := rfl
  simp [read_current_state, write_current_state, h1, h2, h3, hp, hv, hs,
    hp0, hv0, hs0]

/-- Witness for C7 (amended): round-trip at a concrete trimmed state. -/
theorem state_roundtrip_witness :
    read_current_state (some (some (write_current_state
      ⟨"my_program", "1.0.1", "https://example.com"⟩))) =
      .ok ⟨"my_program", "1.0.1", "https://example.com"⟩ :=
  state_roundtrip ⟨"my_program", "1.0.1", "https://example.com"⟩
    (by decide) (by decide) (by decide) (by decide) (by decide) (by decide)

/-- C4 counterexample: two collaborator calls that raise across their
public boundary — `read_current_state` on a missing file raises
`FileNotFoundError` instead of returning a tagged failure, and
`fetch_latest` on a 200 response whose JSON body is an array (a non-object
JSON body) raises `AttributeError` from `obj.get`. -/
theorem collaborator_raises_counterexample :
    (∃ e, read_current_state none = Except.error e) ∧
    (∃ e, fetch_latest (some (200, some (Json.arr []))) = Except.error e) :=
  ⟨⟨_, rfl⟩, ⟨_, rfl⟩⟩

/-- C4 amended: `download_file`, `promote_staging` and `unzip` return
tagged results, but not every collaborator is exception-free —
`read_current_state` and `parse_semver`/`compare_versions` signal failure
by raising (relying on the orchestrator's catch-all), and `fetch_latest`
raises `AttributeError` exactly when a 200 response's JSON body is a
non-object, or is an object passing the `program_id`/`latest_version`
validation whose `asset` field is a truthy non-object; for every other
response — malformed bodies included — it returns a tagged result. -/
theorem fetch_latest_raise_characterization :
    (∀ resp : ApiResp, isErr (fetch_latest resp) = fetchRaises resp) ∧
    (∃ e, read_current_state none = Except.error e) ∧
    (∀ v : List Char, parse_semver v = none →
      compare_versions v v = none) := by
  refine ⟨?_, ⟨_, rfl⟩, ?_⟩
  · intro resp
    match resp with
    | none => rfl
    | some (status, body) =>
      by_cases h200 : status = 200
      · subst h200
        match body with
        | none => rfl
        | some j =>
          match j with
          | .null | .bool _ | .num _ | .str _ | .arr _ => rfl
          | .obj kvs =>
            rcases hpid : jGet kvs "program_id" with _ | jp
            · simp [fetch_latest, fetchRaises, isErr, fieldStrOk, hpid]
            · match jp with
              | .null | .bool _ | .num _ | .arr _ | .obj _ =>
                simp [fetch_latest, fetchRaises, isErr, fieldStrOk, hpid]
              | .str sp =>
                by_cases hps : pystrip sp = ""
                · simp [fetch_latest, fetchRaises, isErr, fieldStrOk, hpid, hps]
                · rcases hlat : jGet kvs "latest_version" with _ | jl
                  · simp [fetch_latest, fetchRaises, isErr, fieldStrOk, hpid, hps, hlat]
                  · match jl with
                    | .null | .bool _ | .num _ | .arr _ | .obj _ =>
                      simp [fetch_latest, fetchRaises, isErr, fieldStrOk, hpid, hps, hlat]
                    | .str sl =>
                      by_cases hls : pystrip sl = ""
                      · simp [fetch_latest, fetchRaises, isErr, fieldStrOk,
                          hpid, hps, hlat, hls]
                      · rcases hass : jGet kvs "asset" with _ | ja
                        · simp [fetch_latest, fetchRaises, isErr, fieldStrOk,
                            hpid, hps, hlat, hls, hass]
                        · by_cases htru : jTruthy ja = true
                          · match ja with
                            | .obj akvs =>
                              simp [fetch_latest, fetchRaises, isErr, fieldStrOk,
                                hpid, hps, hlat, hls, hass, htru, isObj]
                            | .null | .bool _ | .num _ | .str _ | .arr _ =>
                              simp [fetch_latest, fetchRaises, isErr, fieldStrOk,
                                hpid, hps, hlat, hls, hass, htru, isObj]
                          · simp [fetch_latest, fetchRaises, isErr, fieldStrOk,
                              hpid, hps, hlat, hls, hass, htru, isObj]
      · rcases body with _ | j <;> simp [fetch_latest, fetchRaises, isErr, h200]
  · intro v hv
    simp [compare_versions, hv]

/-- Witness for C4 (amended): the characterization instantiated — a truthy
non-object `asset` raises, a missing `asset` does not, and a malformed
local version makes `compare_versions` raise. -/
theorem fetch_latest_raise_characterization_witness :
    isErr (fetch_latest (some (200, some (Json.obj
      [("program_id", Json.str "p"), ("latest_version", Json.str "1.0.0"),
       ("asset", Json.str "x")])))) =
      fetchRaises (some (200, some (Json.obj
      [("program_id", Json.str "p"), ("latest_version", Json.str "1.0.0"),
       ("asset", Json.str "x")]))) ∧
    compare_versions "oops".toList "oops".toList = none :=
  ⟨fetch_latest_raise_characterization.1 _,
   fetch_latest_raise_characterization.2.2 "oops".toList (by decide)⟩

/-- Lexicographic order on integer triples is trichotomous. -/
theorem tupLt_trichotomy (x y : Int × Int × Int)
    (hxy : ¬tupLt x y) (hyx : ¬tupLt y x) : x = y := by
  rcases x with ⟨a, b, c⟩
  rcases y with ⟨d, e, f⟩
  simp only [tupLt, not_or, not_and, not_lt, Prod.mk.injEq] at *
  omega

/-- C5: on version strings that parse, `compare` is exactly the sign of
the lexicographic comparison of the `(major, minor, patch)` triples —
numeric per component, not lexicographic on the strings, as the worked
examples `compare("1.9.0","1.10.0") = -1` and `compare("2.0.0","1.9.9") =
1` show. -/
theorem compare_versions_correct :
    (∀ (lv rv : List Char) (l r : Int × Int × Int),
      parse_semver lv = some l → parse_semver rv = some r →
      ((compare_versions lv rv = some (-1) ↔ tupLt l r) ∧
       (compare_versions lv rv = some 1 ↔ tupLt r l) ∧
       (compare_versions lv rv = some 0 ↔ l = r))) ∧
    compare_versions "1.0.0".toList "1.0.1".toList = some (-1) ∧
    compare_versions "1.9.0".toList "1.10.0".toList = some (-1) ∧
    compare_versions "2.0.0".toList "1.9.9".toList = some 1 ∧
    compare_versions "1.0.0".toList "1.0.0".toList = some 0 := by
  refine ⟨?_, by decide, by decide, by decide, by decide⟩
  intro lv rv l r hl hr
  have hc : compare_versions lv rv =
      some (if tupLt l r then -1 else if tupLt r l then 1 else 0) := by
    simp [compare_versions, hl, hr]
  by_cases hlt : tupLt l r
  · have hnot : ¬tupLt r l := by
      rcases l with ⟨a, b, c⟩; rcases r with ⟨d, e, f⟩
      simp only [tupLt] at *; omega
    have hne : ¬(l = r) := by
      rintro rfl
      rcases l with ⟨a, b, c⟩
      simp only [tupLt] at hlt; omega
    rw [hc, if_pos hlt]
    refine ⟨⟨fun _ => hlt, fun _ => rfl⟩, ?_, ?_⟩ <;>
      constructor <;> intro h <;> first
        | exact absurd h (by simp)
        | exact absurd h hnot
        | exact absurd h hne
  · by_cases hgt : tupLt r l
    · have hne : ¬(l = r) := by
        rintro rfl
        rcases l with ⟨a, b, c⟩
        simp only [tupLt] at hgt; omega
      rw [hc, if_neg hlt, if_pos hgt]
      refine ⟨?_, ⟨fun _ => hgt, fun _ => rfl⟩, ?_⟩ <;>
        constructor <;> intro h <;> first
          | exact absurd h (by simp)
          | exact absurd h hlt
          | exact absurd h hne
    · have heq : l = r := tupLt_trichotomy l r hlt hgt
      rw [hc, if_neg hlt, if_neg hgt]
      refine ⟨?_, ?_, ⟨fun _ => heq, fun _ => rfl⟩⟩ <;>
        constructor <;> intro h <;> first
          | exact absurd h (by simp)
          | exact absurd h hlt
          | exact absurd h hgt

/-- Witness for C5: the general part applied at `"1.9.0"` / `"1.10.0"`. -/
theorem compare_versions_correct_witness :
    (compare_versions "1.9.0".toList "1.10.0".toList = some (-1) ↔
      tupLt (1, 9, 0) (1, 10, 0)) ∧
    (compare_versions "1.9.0".toList "1.10.0".toList = some 1 ↔
      tupLt (1, 10, 0) (1, 9, 0)) ∧
    (compare_versions "1.9.0".toList "1.10.0".toList = some 0 ↔
      ((1, 9, 0) : Int × Int × Int) = (1, 10, 0)) :=
  compare_versions_correct.1 "1.9.0".toList "1.10.0".toList
    (1, 9, 0) (1, 10, 0) (by decide) (by decide)

/-! ### Helper lemmas on stripping and splitting (for C6) -/

theorem isWs_ne_dot {c : Char} (h : isWs c = true) : ¬(c = '.') := by
  intro heq
  subst heq
  simp [isWs] at h

theorem dropWhile_ws_append {w l : List Char} (hw : ∀ c ∈ w, isWs c = true) :
    (w ++ l).dropWhile isWs = l.dropWhile isWs := by
  induction w with
  | nil => rfl
  | cons c cs ih =>
    have hc : isWs c = true := hw c (List.mem_cons_self c cs)
    simp only [List.cons_append, List.dropWhile, hc]
    exact ih (fun x hx => hw x (List.mem_cons_of_mem c hx))

theorem lstrip_ws_append {w l : List Char} (hw : ∀ c ∈ w, isWs c = true) :
    lstrip (w ++ l) = lstrip l :=
  dropWhile_ws_append hw

theorem rstrip_append_ws {w l : List Char} (hw : ∀ c ∈ w, isWs c = true) :
    rstrip (l ++ w) = rstrip l := by
  unfold rstrip
  rw [List.reverse_append, dropWhile_ws_append]
  intro c hc
  exact hw c (List.mem_reverse.mp hc)

theorem rstrip_eq_nil_iff {l : List Char} :
    rstrip l = [] ↔ ∀ c ∈ l, isWs c = true := by
  unfold rstrip
  rw [List.reverse_eq_nil_iff, List.dropWhile_eq_nil_iff]
  constructor
  · intro h c hc
    exact h c (List.mem_reverse.mpr hc)
  · intro h c hc
    exact h c (List.mem_reverse.mp hc)

theorem lstrip_eq_nil_iff {l : List Char} :
    lstrip l = [] ↔ ∀ c ∈ l, isWs c = true := List.dropWhile_eq_nil_iff

theorem rstrip_cons_of_ne {c : Char} {cs : List Char} (h : rstrip cs ≠ []) :
    rstrip (c :: cs) = c :: rstrip cs := by
  have hne : cs.reverse.dropWhile isWs ≠ [] := by
    intro hd
    exact h (by simp [rstrip, hd])
  show ((c :: cs).reverse.dropWhile isWs).reverse = c :: rstrip cs
  rw [List.reverse_cons, List.dropWhile_append]
  simp only [List.isEmpty_iff, hne, if_neg]
  simp [rstrip]

theorem rstrip_cons_of_not_ws {c : Char} {cs : List Char} (hc : isWs c = false) :
    rstrip (c :: cs) = c :: rstrip cs := by
  by_cases h : rstrip cs = []
  · have hall : cs.reverse.dropWhile isWs = [] := by
      rw [List.dropWhile_eq_nil_iff]
      intro x hx
      exact rstrip_eq_nil_iff.mp h x (List.mem_reverse.mp hx)
    show ((c :: cs).reverse.dropWhile isWs).reverse = c :: rstrip cs
    rw [List.reverse_cons, List.dropWhile_append]
    simp [hall, List.dropWhile, hc, h]
  · exact rstrip_cons_of_ne h

/-- `strip` can be computed in either order. -/
theorem pstrip_comm (l : List Char) : lstrip (rstrip l) = rstrip (lstrip l) := by
  induction l with
  | nil => rfl
  | cons c cs ih =>
    by_cases hc : isWs c = true
    · have hl : lstrip (c :: cs) = lstrip cs := by simp [lstrip, List.dropWhile, hc]
      by_cases hcs : rstrip cs = []
      · have hall : ∀ x ∈ c :: cs, isWs x = true := by
          intro x hx
          rcases List.mem_cons.mp hx with hx | hx
          · exact hx ▸ hc
          · exact rstrip_eq_nil_iff.mp hcs x hx
        have hlcs : lstrip cs = [] :=
          lstrip_eq_nil_iff.mpr (fun x hx => hall x (List.mem_cons_of_mem c hx))
        rw [rstrip_eq_nil_iff.mpr hall, hl, hlcs]
        simp [lstrip, rstrip]
      · rw [rstrip_cons_of_ne hcs, hl, ← ih]
        simp [lstrip, List.dropWhile, hc]
    · have hcf : isWs c = false := by simpa using hc
      rw [rstrip_cons_of_not_ws hcf]
      have h1 : lstrip (c :: rstrip cs) = c :: rstrip cs := by
        simp [lstrip, List.dropWhile, hcf]
      have h2 : lstrip (c :: cs) = c :: cs := by
        simp [lstrip, List.dropWhile, hcf]
      rw [h1, h2, rstrip_cons_of_not_ws hcf]

theorem pstrip_ws_append {w l : List Char} (hw : ∀ c ∈ w, isWs c = true) :
    pstrip (w ++ l) = pstrip l := by
  unfold pstrip
  rw [pstrip_comm, pstrip_comm, lstrip_ws_append hw]

theorem pstrip_append_ws {w l : List Char} (hw : ∀ c ∈ w, isWs c = true) :
    pstrip (l ++ w) = pstrip l := by
  unfold pstrip
  rw [rstrip_append_ws hw]

theorem pyInt_congr {a b : List Char} (h : pstrip a = pstrip b) :
    pyInt a = pyInt b := by
  unfold pyInt
  rw [h]

theorem splitOnDot_ne_nil (l : List Char) : splitOnDot l ≠ [] := by
  cases l with
  | nil => simp [splitOnDot]
  | cons c cs =>
    by_cases hc : c = '.'
    · simp [splitOnDot, hc]
    · rcases h : splitOnDot cs with _ | ⟨p, ps⟩ <;> simp [splitOnDot, hc, h]

theorem splitOnDot_nodot {w : List Char} (hw : ∀ c ∈ w, ¬(c = '.')) :
    splitOnDot w = [w] := by
  induction w with
  | nil => rfl
  | cons c cs ih =>
    have hc : ¬(c = '.') := hw c (List.mem_cons_self c cs)
    have hcs := ih (fun x hx => hw x (List.mem_cons_of_mem c hx))
    simp [splitOnDot, hc, hcs]

theorem splitOnDot_append_left {w l : List Char} {p : List Char}
    {ps : List (List Char)} (hw : ∀ c ∈ w, ¬(c = '.'))
    (hl : splitOnDot l = p :: ps) :
    splitOnDot (w ++ l) = (w ++ p) :: ps := by
  induction w with
  | nil => simpa using hl
  | cons c cs ih =>
    have hc : ¬(c = '.') := hw c (List.mem_cons_self c cs)
    have hcs := ih (fun x hx => hw x (List.mem_cons_of_mem c hx))
    simp [splitOnDot, hc, hcs]


theorem splitOnDot_append_right {l w : List Char} (hw : ∀ c ∈ w, ¬(c = '.')) :
    splitOnDot (l ++ w) = appLast w (splitOnDot l) := by
  induction l with
  | nil =>
    simp [splitOnDot, splitOnDot_nodot hw, appLast]
  | cons c cs ih =>
    by_cases hc : c = '.'
    · rcases h : splitOnDot cs with _ | ⟨q, qs⟩
      · exact absurd h (splitOnDot_ne_nil cs)
      · rw [h] at ih
        simp [splitOnDot, hc, ih, h, appLast]
    · rcases h : splitOnDot cs with _ | ⟨q, qs⟩
      · exact absurd h (splitOnDot_ne_nil cs)
      · rw [h] at ih
        cases qs with
        | nil => simp [splitOnDot, hc, ih, h, appLast]
        | cons q2 qs2 => simp [splitOnDot, hc, ih, h, appLast]

theorem appLast_ne_nil (w : List Char) (l : List (List Char)) :
    appLast w l ≠ [] := by
  match l with
  | [] => simp [appLast]
  | [p] => simp [appLast]
  | p :: q :: ps => simp [appLast]

/-- Leading whitespace does not change the three-component parse: it is
absorbed into the first component and `int()` strips it. -/
theorem semTriple_lstrip (x : List Char) :
    semTriple (lstrip x) = semTriple x := by
  have hdec : x = x.takeWhile isWs ++ lstrip x :=
    (List.takeWhile_append_dropWhile (p := isWs) (l := x)).symm
  have hwws : ∀ c ∈ x.takeWhile isWs, isWs c = true :=
    fun c hc => List.mem_takeWhile_imp hc
  have hwnd : ∀ c ∈ x.takeWhile isWs, ¬(c = '.') :=
    fun c hc => isWs_ne_dot (hwws c hc)
  rcases hsp : splitOnDot (lstrip x) with _ | ⟨p, ps⟩
  · exact absurd hsp (splitOnDot_ne_nil _)
  · have hx : splitOnDot x = (x.takeWhile isWs ++ p) :: ps := by
      conv_lhs => rw [hdec]
      exact splitOnDot_append_left hwnd hsp
    have hpi : pyInt (x.takeWhile isWs ++ p) = pyInt p :=
      pyInt_congr (pstrip_ws_append hwws)
    rcases ps with _ | ⟨b, _ | ⟨c2, _ | ⟨d, rest⟩⟩⟩ <;>
      simp [semTriple, hx, hsp, hpi]

/-- Trailing whitespace does not change the three-component parse: it is
absorbed into the last component and `int()` strips it. -/
theorem semTriple_rstrip (x : List Char) :
    semTriple (rstrip x) = semTriple x := by
  have hdec : x = rstrip x ++ (x.reverse.takeWhile isWs).reverse := by
    conv_lhs => rw [← List.reverse_reverse x,
      ← List.takeWhile_append_dropWhile (p := isWs) (l := x.reverse)]
    rw [List.reverse_append]
    rfl
  have hwws : ∀ c ∈ (x.reverse.takeWhile isWs).reverse, isWs c = true :=
    fun c hc => List.mem_takeWhile_imp (List.mem_reverse.mp hc)
  have hwnd : ∀ c ∈ (x.reverse.takeWhile isWs).reverse, ¬(c = '.') :=
    fun c hc => isWs_ne_dot (hwws c hc)
  rcases hsp : splitOnDot (rstrip x) with _ | ⟨p, ps⟩
  · exact absurd hsp (splitOnDot_ne_nil _)
  · have hx : splitOnDot x =
        appLast (x.reverse.takeWhile isWs).reverse (splitOnDot (rstrip x)) := by
      conv_lhs => rw [hdec]
      exact splitOnDot_append_right hwnd
    rw [hsp] at hx
    rcases ps with _ | ⟨b, _ | ⟨c2, _ | ⟨d, rest⟩⟩⟩
    · simp [semTriple, hx, hsp, appLast]
    · simp [semTriple, hx, hsp, appLast]
    · have hpi : pyInt (c2 ++ (x.reverse.takeWhile isWs).reverse) = pyInt c2 :=
        pyInt_congr (pstrip_append_ws hwws)
      simp [semTriple, hx, hsp, appLast, hpi]
    · rcases h4 : appLast (x.reverse.takeWhile isWs).reverse (d :: rest)
        with _ | ⟨e, es⟩
      · exact absurd h4 (appLast_ne_nil _ _)
      · simp [semTriple, hx, hsp, appLast, h4]

/-- Stripping a component list does not change the three-component parse. -/
theorem semTriple_pstrip (x : List Char) :
    semTriple (pstrip x) = semTriple x := by
  show semTriple (lstrip (rstrip x)) = semTriple x
  rw [semTriple_lstrip, semTriple_rstrip]

/-- C6: `parse` strips surrounding whitespace and one optional leading
`v`/`V`, splits on `.`, and succeeds with the integer triple iff there are
exactly three components, all parsing as (Python) integers, none negative
(`parse_semver` re-strips after dropping the `v`, but that changes nothing
because `int()` already tolerates surrounding whitespace); the worked
examples behave as claimed. -/
theorem parse_semver_matches_spec :
    (∀ v : List Char, parse_semver v = parseSemverSpec v) ∧
    parse_semver "1.0.0".toList = some (1, 0, 0) ∧
    parse_semver "v1.0.0".toList = some (1, 0, 0) ∧
    parse_semver "1.0".toList = none ∧
    parse_semver "1.0.a".toList = none ∧
    parse_semver "-1.0.0".toList = none := by
  refine ⟨?_, by decide, by decide, by decide, by decide, by decide⟩
  intro v
  simp only [parse_semver, parseSemverSpec]
  rcases h : pstrip v with _ | ⟨c, rest⟩
  · rfl
  · by_cases hv : c = 'v' ∨ c = 'V'
    · simp [hv, semTriple_pstrip]
    · simp [hv]


/-- C3 counterexample: when `fetch_latest` fails, `_run_impl` returns
`UpdateResult(False, "fetch_latest failed: …")` with the default
`exe_path=None`, even though the previously-known-good executable is
resolvable (`localExe` is set) — so the failure result does not carry it. -/
theorem failure_fallback_counterexample :
    ({ baseWorld with fetchResp := none } : World).localExe =
      some "versions/v1_0_0/CrawlProgram.exe" ∧
    (runWorker { baseWorld with fetchResp := none }).1.ok = false ∧
    (runWorker { baseWorld with fetchResp := none }).1.exe_path = none := by
  refine ⟨rfl, ?_, ?_⟩ <;> rfl

/-- C3 amended: only the stages from the download onward (missing asset
URL, download, unpack, executable search in the package, promote, final
executable search) return a failure result carrying the previously
resolved executable path; failures at state read, remote fetch, version
compare, and state persist produce a result with no executable path (the
first and last through the worker's catch-all). -/
theorem failure_result_fallback :
    (∀ (w : World) (e : String),
      read_current_state w.currentJson = .error e →
      (runWorker w).1.ok = false ∧ (runWorker w).1.exe_path = none) ∧
    (∀ (w : World) (st : CurrentState) (fok : Bool) (fmsg : String)
        (lat : Option LatestInfo),
      read_current_state w.currentJson = .ok st →
      fetch_latest w.fetchResp = .ok (fok, fmsg, lat) →
      fok = false ∨ lat = none →
      (runWorker w).1.ok = false ∧ (runWorker w).1.exe_path = none) ∧
    (∀ (w : World) (st : CurrentState) (fmsg : String) (lat : LatestInfo),
      read_current_state w.currentJson = .ok st →
      fetch_latest w.fetchResp = .ok (true, fmsg, some lat) →
      compare_versions st.version.toList lat.latest_version.toList = none →
      (runWorker w).1.ok = false ∧ (runWorker w).1.exe_path = none) ∧
    (∀ (w : World) (st : CurrentState) (fmsg : String) (lat : LatestInfo),
      read_current_state w.currentJson = .ok st →
      fetch_latest w.fetchResp = .ok (true, fmsg, some lat) →
      compare_versions st.version.toList lat.latest_version.toList = some (-1) →
      w.autoUpdate = true → lat.asset_url = none →
      (runWorker w).1.ok = false ∧ (runWorker w).1.exe_path = w.localExe) ∧
    (∀ (w : World) (st : CurrentState) (fmsg : String) (lat : LatestInfo) (u : String),
      read_current_state w.currentJson = .ok st →
      fetch_latest w.fetchResp = .ok (true, fmsg, some lat) →
      compare_versions st.version.toList lat.latest_version.toList = some (-1) →
      w.autoUpdate = true → lat.asset_url = some u →
      (dlStage w.dlResp w.dlTotal).1 = false →
      (runWorker w).1.ok = false ∧ (runWorker w).1.exe_path = w.localExe) ∧
    (∀ (w : World) (st : CurrentState) (fmsg : String) (lat : LatestInfo) (u : String),
      read_current_state w.currentJson = .ok st →
      fetch_latest w.fetchResp = .ok (true, fmsg, some lat) →
      compare_versions st.version.toList lat.latest_version.toList = some (-1) →
      w.autoUpdate = true → lat.asset_url = some u →
      (dlStage w.dlResp w.dlTotal).1 = true → w.unzipOk = false →
      (runWorker w).1.ok = false ∧ (runWorker w).1.exe_path = w.localExe) ∧
    (∀ (w : World) (st : CurrentState) (fmsg : String) (lat : LatestInfo) (u : String),
      read_current_state w.currentJson = .ok st →
      fetch_latest w.fetchResp = .ok (true, fmsg, some lat) →
      compare_versions st.version.toList lat.latest_version.toList = some (-1) →
      w.autoUpdate = true → lat.asset_url = some u →
      (dlStage w.dlResp w.dlTotal).1 = true → w.unzipOk = true →
      w.stagingExe = none →
      (runWorker w).1.ok = false ∧ (runWorker w).1.exe_path = w.localExe) ∧
    (∀ (w : World) (st : CurrentState) (fmsg : String) (lat : LatestInfo)
        (u se : String),
      read_current_state w.currentJson = .ok st →
      fetch_latest w.fetchResp = .ok (true, fmsg, some lat) →
      compare_versions st.version.toList lat.latest_version.toList = some (-1) →
      w.autoUpdate = true → lat.asset_url = some u →
      (dlStage w.dlResp w.dlTotal).1 = true → w.unzipOk = true →
      w.stagingExe = some se → w.promoteOk = false →
      (runWorker w).1.ok = false ∧ (runWorker w).1.exe_path = w.localExe) ∧
    (∀ (w : World) (st : CurrentState) (fmsg : String) (lat : LatestInfo)
        (u se : String),
      read_current_state w.currentJson = .ok st →
      fetch_latest w.fetchResp = .ok (true, fmsg, some lat) →
      compare_versions st.version.toList lat.latest_version.toList = some (-1) →
      w.autoUpdate = true → lat.asset_url = some u →
      (dlStage w.dlResp w.dlTotal).1 = true → w.unzipOk = true →
      w.stagingExe = some se → w.promoteOk = true → w.writeOk = false →
      (runWorker w).1.ok = false ∧ (runWorker w).1.exe_path = none) ∧
    (∀ (w : World) (st : CurrentState) (fmsg : String) (lat : LatestInfo)
        (u se : String),
      read_current_state w.currentJson = .ok st →
      fetch_latest w.fetchResp = .ok (true, fmsg, some lat) →
      compare_versions st.version.toList lat.latest_version.toList = some (-1) →
      w.autoUpdate = true → lat.asset_url = some u →
      (dlStage w.dlResp w.dlTotal).1 = true → w.unzipOk = true →
      w.stagingExe = some se → w.promoteOk = true → w.writeOk = true →
      w.targetExe = none →
      (runWorker w).1.ok = false ∧ (runWorker w).1.exe_path = w.localExe) := by
  refine ⟨?_, ?_, ?_, ?_, ?_, ?_, ?_, ?_, ?_, ?_⟩
  · intro w e hread
    simp [runWorker, runImpl, hread]
  · intro w st fok fmsg lat hread hfetch hbad
    rcases hbad with h | h <;> subst h
    · rcases lat with _ | lat <;> simp [runWorker, runImpl, hread, hfetch]
    · rcases fok <;> simp [runWorker, runImpl, hread, hfetch]
  · intro w st fmsg lat hread hfetch hcmp
    simp only [String.toList] at hcmp
    simp [runWorker, runImpl, hread, hfetch, hcmp]
  · intro w st fmsg lat hread hfetch hcmp hauto hasset
    simp only [String.toList] at hcmp
    simp [runWorker, runImpl, hread, hfetch, hcmp, hauto, hasset]
  · intro w st fmsg lat u hread hfetch hcmp hauto hasset hdl
    simp only [String.toList] at hcmp
    simp [runWorker, runImpl, runUpdate, hread, hfetch, hcmp, hauto, hasset, hdl]
  · intro w st fmsg lat u hread hfetch hcmp hauto hasset hdl hunzip
    simp only [String.toList] at hcmp
    simp [runWorker, runImpl, runUpdate, hread, hfetch, hcmp, hauto, hasset,
      hdl, hunzip]
  · intro w st fmsg lat u hread hfetch hcmp hauto hasset hdl hunzip hstag
    simp only [String.toList] at hcmp
    simp [runWorker, runImpl, runUpdate, hread, hfetch, hcmp, hauto, hasset,
      hdl, hunzip, hstag]
  · intro w st fmsg lat u se hread hfetch hcmp hauto hasset hdl hunzip hstag hprom
    simp only [String.toList] at hcmp
    simp [runWorker, runImpl, runUpdate, hread, hfetch, hcmp, hauto, hasset,
      hdl, hunzip, hstag, hprom]
  · intro w st fmsg lat u se hread hfetch hcmp hauto hasset hdl hunzip hstag
      hprom hwr
    simp only [String.toList] at hcmp
    simp [runWorker, runImpl, runUpdate, hread, hfetch, hcmp, hauto, hasset,
      hdl, hunzip, hstag, hprom, hwr]
  · intro w st fmsg lat u se hread hfetch hcmp hauto hasset hdl hunzip hstag
      hprom hwr htgt
    simp only [String.toList] at hcmp
    simp [runWorker, runImpl, runUpdate, hread, hfetch, hcmp, hauto, hasset,
      hdl, hunzip, hstag, hprom, hwr, htgt]

/-- Witness for C3 (amended): a connection error during the download
(against the otherwise-successful world) yields a failure carrying the
local executable. -/
theorem failure_result_fallback_witness :
    (runWorker { baseWorld with dlResp := .connErr }).1.ok = false ∧
    (runWorker { baseWorld with dlResp := .connErr }).1.exe_path =
      ({ baseWorld with dlResp := .connErr } : World).localExe :=
  failure_result_fallback.2.2.2.2.1 { baseWorld with dlResp := .connErr }
    ⟨"p", "1.0.0", "u"⟩ "ok"
    { program_id := "p", latest_version := "1.1.0",
      asset_url := some "http://x/a.zip" } "http://x/a.zip"
    rfl rfl (by decide) rfl rfl rfl

/-- C8: whenever the local version compares lower than the remote latest
and `auto_update` is off, the run returns immediately with
`update_available=true`, the remote latest version string, and the asset
URL, having emitted only the initial progress and executed no
filesystem-mutating stage — nothing on disk is created, modified, or
deleted. -/
theorem no_auto_update_is_pure (w : World) (st : CurrentState) (fmsg : String)
    (lat : LatestInfo)
    (hread : read_current_state w.currentJson = .ok st)
    (hfetch : fetch_latest w.fetchResp = .ok (true, fmsg, some lat))
    (hcmp : compare_versions st.version.toList lat.latest_version.toList =
      some (-1))
    (hauto : w.autoUpdate = false) :
    runWorker w =
      ({ ok := true, message := "update available", exe_path := w.localExe,
         did_run := false, update_available := true,
         latest_version := some lat.latest_version,
         asset_url := lat.asset_url }, [0], []) := by
  simp only [String.toList] at hcmp
  simp [runWorker, runImpl, hread, hfetch, hcmp, hauto, clampPct]

/-- Witness for C8: the base world with `auto_update := false`. -/
theorem no_auto_update_is_pure_witness :
    runWorker { baseWorld with autoUpdate := false } =
      ({ ok := true, message := "update available",
         exe_path := some "versions/v1_0_0/CrawlProgram.exe",
         did_run := false, update_available := true,
         latest_version := some "1.1.0",
         asset_url := some "http://x/a.zip" }, [0], []) :=
  no_auto_update_is_pure { baseWorld with autoUpdate := false }
    ⟨"p", "1.0.0", "u"⟩ "ok"
    { program_id := "p", latest_version := "1.1.0",
      asset_url := some "http://x/a.zip" }
    rfl rfl (by decide) rfl

/-! ### Progress monotonicity (C9) -/

theorem cums_le_sum (ns : List Nat) : ∀ (acc : Nat), ∀ x ∈ cums acc ns,
    x ≤ acc + ns.sum := by
  induction ns with
  | nil => intro acc x hx; simp [cums] at hx
  | cons n ns ih =>
    intro acc x hx
    rcases List.mem_cons.mp hx with h | h
    · subst h
      simp only [List.sum_cons]
      omega
    · have := ih (acc + n) x h
      simp only [List.sum_cons]
      omega

theorem cums_head_ge (acc : Nat) (ns : List Nat) :
    ∀ y ∈ (cums acc ns).head?, acc ≤ y := by
  cases ns with
  | nil => intro y hy; simp [cums] at hy
  | cons n ns =>
    intro y hy
    simp [cums] at hy
    omega

theorem cums_chain (ns : List Nat) : ∀ acc : Nat,
    List.Chain' (fun a b : Nat => a ≤ b) (cums acc ns) := by
  induction ns with
  | nil => intro acc; simp [cums]
  | cons n ns ih =>
    intro acc
    rw [cums, List.chain'_cons']
    exact ⟨fun y hy => cums_head_ge (acc + n) ns y hy, ih (acc + n)⟩

theorem filter_lengths_sum_le (chunks : List Bytes) :
    ((chunks.filter (fun c => !c.isEmpty)).map List.length).sum ≤
      (chunks.map List.length).sum := by
  induction chunks with
  | nil => simp
  | cons c cs ih =>
    cases c with
    | nil =>
      simp [List.filter_cons]
      omega
    | cons b bs =>
      simp [List.filter_cons]
      omega

theorem dlEmits_chain (total : Nat) (chunks : List Bytes) :
    List.Chain' (fun a b : Nat => a ≤ b) (dlEmits total chunks) := by
  unfold dlEmits
  by_cases ht : total = 0
  · simp [ht]
  · simp only [ht, if_neg, if_false]
    refine List.chain'_map_of_chain' _ ?_ (cums_chain _ 0)
    intro a b hab
    exact min_le_min (le_refl 100)
      (Nat.div_le_div_right (Nat.mul_le_mul_right 80 hab))

theorem dlEmits_le_80 (total : Nat) (chunks : List Bytes)
    (h : (chunks.map List.length).sum ≤ total ∨ total = 0) :
    ∀ x ∈ dlEmits total chunks, x ≤ 80 := by
  unfold dlEmits
  by_cases ht : total = 0
  · simp [ht]
  · simp only [ht, if_neg, if_false]
    intro x hx
    rcases List.mem_map.mp hx with ⟨w, hw, rfl⟩
    have hsum : (chunks.map List.length).sum ≤ total := by
      rcases h with h | h
      · exact h
      · exact absurd h ht
    have hwle : w ≤ total :=
      le_trans (le_trans (cums_le_sum _ 0 w hw) (by simpa using filter_lengths_sum_le chunks))
        hsum
    have hdiv : w * 80 / total ≤ 80 := by
      calc w * 80 / total ≤ total * 80 / total :=
            Nat.div_le_div_right (Nat.mul_le_mul_right 80 hwle)
        _ = 80 := by
            rw [Nat.mul_comm]
            exact Nat.mul_div_cancel 80 (Nat.pos_of_ne_zero ht)
    exact le_trans (min_le_right 100 _) hdiv

/-- The shape of every progress trace: an initial 0, download percentages
bounded by 80, then a rising tail of stage-boundary percentages. -/
theorem chain_zero_mid (e s : List Nat)
    (he : List.Chain' (fun a b : Nat => a ≤ b) e) (hb : ∀ x ∈ e, x ≤ 80)
    (hs : List.Chain' (fun a b : Nat => a ≤ b) s)
    (hhead : ∀ y ∈ s.head?, 80 ≤ y) :
    List.Chain' (fun a b : Nat => a ≤ b) (0 :: (e ++ s)) := by
  rw [List.chain'_cons']
  refine ⟨fun y _ => Nat.zero_le y, ?_⟩
  rw [List.chain'_append]
  exact ⟨he, hs,
    fun x hx y hy => le_trans (hb x (List.mem_of_mem_getLast? hx)) (hhead y hy)⟩


theorem runUpdate_chain (w : World) (exeLocal : Option String)
    (h : dlWithin w) :
    List.Chain' (fun a b : Nat => a ≤ b) (runUpdate w exeLocal).2.1 := by
  rcases hdl : w.dlResp with _ | ⟨status, chunks, midErr⟩
  · simp [runUpdate, dlStage, hdl, clampPct]
  · have hbound : (chunks.map List.length).sum ≤ w.dlTotal ∨ w.dlTotal = 0 := by
      unfold dlWithin at h
      rw [hdl] at h
      exact h
    have he := dlEmits_chain w.dlTotal chunks
    have hb := dlEmits_le_80 w.dlTotal chunks hbound
    by_cases h200 : status = 200
    · subst h200
      cases midErr with
      | true =>
        have := chain_zero_mid (dlEmits w.dlTotal chunks) [] he hb (by simp)
          (by simp)
        simpa [runUpdate, dlStage, hdl, clampPct] using this
      | false =>
        rcases hu : w.unzipOk with _ | _
        · have := chain_zero_mid (dlEmits w.dlTotal chunks) [85] he hb
            (by simp) (by simp)
          simpa [runUpdate, dlStage, hdl, hu, clampPct] using this
        · rcases hst : w.stagingExe with _ | se
          · have := chain_zero_mid (dlEmits w.dlTotal chunks) [85] he hb
              (by simp) (by simp)
            simpa [runUpdate, dlStage, hdl, hu, hst, clampPct] using this
          · rcases hp : w.promoteOk with _ | _
            · have := chain_zero_mid (dlEmits w.dlTotal chunks) [85, 92] he hb
                (by simp) (by simp)
              simpa [runUpdate, dlStage, hdl, hu, hst, hp, clampPct] using this
            · rcases hw2 : w.writeOk with _ | _
              · have := chain_zero_mid (dlEmits w.dlTotal chunks) [85, 92, 96]
                  he hb (by simp) (by simp)
                simpa [runUpdate, dlStage, hdl, hu, hst, hp, hw2, clampPct]
                  using this
              · have hch : List.Chain' (fun a b : Nat => a ≤ b)
                    [85, 92, 96, 98, 100] := by
                  norm_num [List.chain'_cons, List.chain'_singleton]
                rcases ht : w.targetExe with _ | te
                · have := chain_zero_mid (dlEmits w.dlTotal chunks)
                    [85, 92, 96, 98, 100] he hb hch (by simp)
                  simpa [runUpdate, dlStage, hdl, hu, hst, hp, hw2, ht, clampPct]
                    using this
                · have := chain_zero_mid (dlEmits w.dlTotal chunks)
                    [85, 92, 96, 98, 100] he hb hch (by simp)
                  simpa [runUpdate, dlStage, hdl, hu, hst, hp, hw2, ht, clampPct]
                    using this
    · simp [runUpdate, dlStage, hdl, h200, clampPct]

/-- C9 amended: in every orchestration run in which the cumulative bytes
delivered by the download never exceed the server-reported Content-Length
(or Content-Length is absent/zero, in which case no download percentage is
emitted at all), the emitted progress percentages are monotonically
non-decreasing — 0, the download percentages bounded by 80, then 85, 92,
96, 98, 100 at the stage boundaries.  Without that bound the claim fails:
a server that under-reports Content-Length drives the download percentage
above 85 (clamped at 100) and the 85 emitted after the download breaks
monotonicity. -/
theorem progress_monotone (w : World) (h : dlWithin w) :
    List.Chain' (fun a b : Nat => a ≤ b) (runWorker w).2.1 := by
  have hrw : (runWorker w).2.1 = (runImpl w).2.1 := by
    unfold runWorker
    rcases runImpl w with ⟨res, prog, effs⟩
    cases res <;> rfl
  rw [hrw]
  unfold runImpl
  rcases read_current_state w.currentJson with e | st
  · simp [clampPct]
  · rcases fetch_latest w.fetchResp with e | ⟨fok, fmsg, latOpt⟩
    · simp [clampPct]
    · cases fok with
      | false => simp [clampPct]
      | true =>
        rcases latOpt with _ | lat
        · simp [clampPct]
        · rcases hcv : compare_versions st.version.data lat.latest_version.data
            with _ | c
          · simp [hcv, clampPct]
          · by_cases hc1 : c > 0
            · rcases hle : w.localExe with _ | exe <;> simp [hcv, hle, hc1, clampPct]
            · by_cases hc0 : c = 0
              · rcases hle : w.localExe with _ | exe <;>
                  simp [hcv, hle, hc1, hc0, clampPct]
              · rcases hau : w.autoUpdate with _ | _
                · simp [hcv, hc1, hc0, hau, clampPct]
                · rcases hass : lat.asset_url with _ | u
                  · simp [hcv, hc1, hc0, hau, hass, clampPct]
                  · simpa [hcv, hc1, hc0, hau, hass]
                      using runUpdate_chain w w.localExe h

/-- Witness for C9 (amended): the fully successful base world (one 1-byte
chunk against Content-Length 1) emits a monotone trace. -/
theorem progress_monotone_witness :
    List.Chain' (fun a b : Nat => a ≤ b) (runWorker baseWorld).2.1 :=
  progress_monotone baseWorld (Or.inl (by decide))


/-- C9 counterexample: with Content-Length 1 and two delivered 1-byte
chunks the worker emits `int((1/1)*80) = 80`, then `int((2/1)*80) = 160`
clamped to 100, then 85 after the unpack stage — the trace
`[0, 80, 100, 85, 92, 96, 98, 100]` is not monotonically non-decreasing,
so the claim fails for this Content-Length value. -/
theorem progress_monotone_counterexample :
    (runWorker underReportWorld).2.1 = [0, 80, 100, 85, 92, 96, 98, 100] ∧
    ¬ List.Chain' (fun a b : Nat => a ≤ b) ((runWorker underReportWorld).2.1) := by
  constructor
  · rfl
  · intro hch
    have h1 : (runWorker underReportWorld).2.1 =
        [0, 80, 100, 85, 92, 96, 98, 100] := rfl
    rw [h1, List.chain'_cons, List.chain'_cons, List.chain'_cons] at hch
    omega

end Launcher
